import Mathlib

/-!
Verification of the dependency-planning core of the `cc` package
(`cc.go`): variant expansion (`linkageMutator`), dependency
classification (`Module.deps`, `baseLinker.deps`, `binaryLinker.deps`,
`lastUniqueElements`), dependency resolution (`Module.depsMutator`,
`Module.depsToPaths`), the final illegal-flag filter of
`Module.GenerateAndroidBuildActions`, and the link planning steps
(`libraryLinker.linkStatic`, `libraryLinker.linkShared`,
`binaryLinker.link`).

Go slices of strings are modelled as `List String`; in-place slice
mutation (`lastUniqueElements`) is modelled by positional read/write on
lists (`lget`/`lset`), and Go loops over a decreasing index become
structural recursion on a counter whose value is the index plus one.
-/

namespace CC

/-- Positional read of a Go slice element `l[i]` (all reads performed by
the modelled code are in bounds; the default is never observed). -/
def lget (l : List String) (i : Nat) : String := l.getD i ""

/-- Positional write of a Go slice element `l[i] = v` (all writes
performed by the modelled code are in bounds). -/
def lset (l : List String) (i : Nat) (v : String) : List String := l.set i v

/-- The sub-slice `l[a:b]` of a Go slice. -/
def slice (l : List String) (a b : Nat) : List String := (l.drop a).take (b - a)

/-- Inner loop of `lastUniqueElements` (cc.go:2600-2607): for the fixed
outer index `i`, scan `j` from `i-1` down while `j >= totalSkip`; count a
`skip` for every `list[j]` equal to `list[i]` and shift the others right
by the current `skip`.  The last argument is the counter `j+1`. -/
def luInner (totalSkip i : Nat) : List String → Nat → Nat → List String × Nat
  | l, skip, 0 => (l, skip)
  | l, skip, n+1 =>
    if n < totalSkip then (l, skip)
    else if lget l i = lget l n then luInner totalSkip i l (skip+1) n
    else luInner totalSkip i (lset l (n+skip) (lget l n)) skip n

/-- Outer loop of `lastUniqueElements` (cc.go:2598-2609): `i` runs from
`len(list)-1` down while `i >= totalSkip`, accumulating `totalSkip`.
The last argument is the counter `i+1`. -/
def luOuter : List String → Nat → Nat → List String × Nat
  | l, totalSkip, 0 => (l, totalSkip)
  | l, totalSkip, n+1 =>
    if n < totalSkip then (l, totalSkip)
    else
      let p := luInner totalSkip n l 0 n
      luOuter p.1 (totalSkip + p.2) n

/-- `lastUniqueElements` (cc.go:2597-2611): returns all unique elements
of a slice, keeping the last copy of each; modifies the slice contents
in place and returns the sub-slice `list[totalSkip:]`. -/
def lastUniqueElements (list : List String) : List String :=
  let p := luOuter list 0 list.length
  p.1.drop p.2

/-- Specification-side dedup: keep an occurrence exactly when the same
name does not occur again later, preserving the order of survivors. -/
def lastUniqueSpec : List String → List String
  | [] => []
  | x :: xs => if x ∈ xs then lastUniqueSpec xs else x :: lastUniqueSpec xs

/-- Functional model of one pass of the imperative dedup, consuming the
pending region from its right end (hence operating on the reverse). -/
def dedupRev : List String → List String → List String
  | [], done => done
  | x :: rest, done => dedupRev (rest.filter (fun y => y ≠ x)) (x :: done)
termination_by l _ => l.length
decreasing_by
  simp_wf
  exact Nat.lt_succ_of_le (List.length_filter_le _ _)

theorem length_lset (l : List String) (p : Nat) (v : String) :
    (lset l p v).length = l.length :=
  List.length_set l p v

theorem getElem?_eq_some_lget {l : List String} {n : Nat} (h : n < l.length) :
    l[n]? = some (lget l n) := by
  rw [lget, List.getD_eq_getElem?_getD, List.getElem?_eq_getElem h]
  rfl

theorem lget_lset_ne {p i : Nat} (h : p ≠ i) (l : List String) (v : String) :
    lget (lset l p v) i = lget l i := by
  simp [lget, lset, List.getD_eq_getElem?_getD, List.getElem?_set_ne h]

theorem lget_lset_self {p : Nat} {l : List String} (h : p < l.length) (v : String) :
    lget (lset l p v) p = v := by
  simp [lget, lset, List.getD_eq_getElem?_getD, List.getElem?_set_self h]

theorem drop_lset_lt {p q : Nat} (h : p < q) (l : List String) (v : String) :
    (lset l p v).drop q = l.drop q := by
  simp [lset, List.drop_set, h]

theorem slice_stop_le_start {a b : Nat} (h : b ≤ a) (l : List String) :
    slice l a b = [] := by
  simp [slice, Nat.sub_eq_zero_of_le h]

theorem slice_length {a b : Nat} {l : List String} (h1 : a ≤ b) (h2 : b ≤ l.length) :
    (slice l a b).length = b - a := by
  simp only [slice, List.length_take, List.length_drop]
  omega

theorem slice_snoc {a n : Nat} {l : List String} (h1 : a ≤ n) (h2 : n < l.length) :
    slice l a (n+1) = slice l a n ++ [lget l n] := by
  have hsub : n + 1 - a = (n - a) + 1 := by omega
  rw [slice, hsub, List.take_succ]
  have hidx : (l.drop a)[n - a]? = some (lget l n) := by
    rw [List.getElem?_drop]
    have : a + (n - a) = n := by omega
    rw [this, getElem?_eq_some_lget h2]
  rw [hidx]
  rfl

theorem slice_lset_ge {b p : Nat} (h : b ≤ p) (l : List String) (a : Nat) (v : String) :
    slice (lset l p v) a b = slice l a b := by
  apply List.ext_getElem?
  intro n
  simp only [slice, List.getElem?_take, List.getElem?_drop, lset]
  by_cases hn : n < b - a
  · rw [if_pos hn, if_pos hn, List.getElem?_set_ne (by omega)]
  · rw [if_neg hn, if_neg hn]

theorem drop_cons_lget {l : List String} {n : Nat} (h : n < l.length) :
    l.drop n = lget l n :: l.drop (n+1) := by
  rw [List.drop_eq_getElem_cons h]
  congr 1
  rw [lget, List.getD_eq_getElem?_getD, List.getElem?_eq_getElem h]
  rfl

theorem lget_eq_of_drop_eq {l₁ l₂ : List String} {k : Nat}
    (h : l₁.drop k = l₂.drop k) : lget l₁ k = lget l₂ k := by
  have h0 : l₁[k]? = l₂[k]? := by
    have := congrArg (fun t => t[0]?) h
    simpa [List.getElem?_drop] using this
  simp [lget, List.getD_eq_getElem?_getD, h0]

theorem slice_zero_length (l : List String) : slice l 0 l.length = l := by
  simp [slice]

/-- Invariant of the inner loop of `lastUniqueElements`: starting at
counter `n` (next index to examine is `n-1`) with `skip` matches already
found, the loop adds one skip per occurrence of `list[i]` in the region
`[totalSkip, n)`, shifts the non-matching elements of that region right
so that they end up contiguous just before position `n + skip`, and
leaves everything from position `n + skip` on (in particular `list[i]`)
untouched. -/
theorem luInner_spec (ts i : Nat) :
    ∀ (n : Nat) (l : List String) (skip : Nat), n + skip ≤ i → i < l.length →
      (luInner ts i l skip n).2 = skip + (slice l ts n).count (lget l i)
      ∧ (luInner ts i l skip n).1.length = l.length
      ∧ (luInner ts i l skip n).1.drop (n + skip) = l.drop (n + skip)
      ∧ slice (luInner ts i l skip n).1 (ts + skip + (slice l ts n).count (lget l i)) (n + skip)
          = (slice l ts n).filter (fun y => y ≠ lget l i) := by
  intro n
  induction n with
  | zero =>
    intro l skip h1 h2
    have hz : slice l ts 0 = [] := slice_stop_le_start (Nat.zero_le ts) l
    refine ⟨?_, rfl, rfl, ?_⟩
    · simp [luInner, hz]
    · simp only [luInner, hz, List.count_nil, Nat.add_zero, List.filter_nil]
      exact slice_stop_le_start (by omega) l
  | succ n ih =>
    intro l skip h1 h2
    by_cases hts : n < ts
    · have hz : slice l ts (n+1) = [] := slice_stop_le_start (by omega) l
      have hred : luInner ts i l skip (n+1) = (l, skip) := by
        simp [luInner, hts]
      rw [hred, hz]
      refine ⟨by simp, rfl, rfl, ?_⟩
      simp only [List.count_nil, Nat.add_zero, List.filter_nil]
      exact slice_stop_le_start (by omega) l
    · have hle : ts ≤ n := Nat.le_of_not_lt hts
      have hnl : n < l.length := by omega
      have hseg : slice l ts (n+1) = slice l ts n ++ [lget l n] :=
        slice_snoc hle hnl
      by_cases heq : lget l i = lget l n
      · -- match: skip this occurrence
        simp only [luInner, if_neg hts, if_pos heq]
        obtain ⟨e1, e2, e3, e4⟩ := ih l (skip+1) (by omega) h2
        have hcnt : (slice l ts (n+1)).count (lget l i)
            = (slice l ts n).count (lget l i) + 1 := by
          rw [hseg, List.count_append, List.count_singleton]
          simp [← heq]
        have hfil : (slice l ts (n+1)).filter (fun y => y ≠ lget l i)
            = (slice l ts n).filter (fun y => y ≠ lget l i) := by
          rw [hseg, List.filter_append]
          simp [← heq]
        refine ⟨?_, e2, ?_, ?_⟩
        · rw [e1, hcnt]; omega
        · have : n + 1 + skip = n + (skip + 1) := by omega
          rw [this, e3]
        · rw [hfil, hcnt]
          have ha : ts + skip + ((slice l ts n).count (lget l i) + 1)
              = ts + (skip + 1) + (slice l ts n).count (lget l i) := by omega
          have hb : n + 1 + skip = n + (skip + 1) := by omega
          rw [ha, hb, e4]
      · -- no match: shift the element right by skip
        simp only [luInner, if_neg hts, if_neg heq]
        have hni : n + skip < i := by omega
        set l₂ := lset l (n+skip) (lget l n) with hl₂
        have hlen₂ : l₂.length = l.length := length_lset l (n+skip) (lget l n)
        have hi₂ : lget l₂ i = lget l i := lget_lset_ne (by omega) l (lget l n)
        have hseg₂ : slice l₂ ts n = slice l ts n :=
          slice_lset_ge (Nat.le_add_right n skip) l ts (lget l n)
        obtain ⟨e1, e2, e3, e4⟩ := ih l₂ skip (by omega) (by omega)
        rw [hi₂, hseg₂] at e1 e4
        have hcnt : (slice l ts (n+1)).count (lget l i)
            = (slice l ts n).count (lget l i) := by
          rw [hseg, List.count_append, List.count_singleton]
          simp only [beq_iff_eq]
          rw [if_neg (fun h => heq h.symm)]
          omega
        have hne : lget l n ≠ lget l i := fun h => heq h.symm
        have hfil : (slice l ts (n+1)).filter (fun y => y ≠ lget l i)
            = (slice l ts n).filter (fun y => y ≠ lget l i) ++ [lget l n] := by
          rw [hseg, List.filter_append]
          congr 1
          simp [hne]
        refine ⟨?_, ?_, ?_, ?_⟩
        · rw [e1, hcnt]
        · rw [e2, hlen₂]
        · have hstep : n + 1 + skip = n + skip + 1 := by omega
          rw [hstep, ← List.drop_drop 1 (n+skip), e3, hl₂,
            List.drop_drop, drop_lset_lt (by omega)]
        · rw [hcnt, hfil]
          have hcle : (slice l ts n).count (lget l i) ≤ n - ts := by
            calc (slice l ts n).count (lget l i)
                ≤ (slice l ts n).length := List.count_le_length _ _
              _ = n - ts := slice_length hle (by omega)
          have hres : lget (luInner ts i l₂ skip n).1 (n + skip) = lget l n := by
            rw [lget_eq_of_drop_eq e3, hl₂, lget_lset_self (by omega)]
          have hstep : n + 1 + skip = (n + skip) + 1 := by omega
          rw [hstep, slice_snoc (by omega) (by rw [e2, hlen₂]; omega), e4, hres]


/-- Invariant of the outer loop of `lastUniqueElements`: processing the
pending region `[totalSkip, n)` with the already-deduplicated suffix at
`[n, len)` yields (after the final `list[totalSkip:]`) exactly the
right-to-left dedup of the pending region prepended to that suffix. -/
theorem luOuter_spec :
    ∀ (n : Nat) (l : List String) (ts : Nat), ts ≤ n → n ≤ l.length →
      (luOuter l ts n).1.drop (luOuter l ts n).2
        = dedupRev (slice l ts n).reverse (l.drop n) := by
  intro n
  induction n with
  | zero =>
    intro l ts h1 h2
    have hts0 : ts = 0 := Nat.le_zero.mp h1
    subst hts0
    simp [luOuter, slice_stop_le_start (Nat.le_refl 0), dedupRev]
  | succ n ih =>
    intro l ts h1 h2
    by_cases hts : n < ts
    · have hts1 : ts = n + 1 := by omega
      subst hts1
      have hred : luOuter l (n+1) (n+1) = (l, n+1) := by
        simp [luOuter, hts]
      rw [hred]
      simp [slice_stop_le_start (Nat.le_refl (n+1)), dedupRev]
    · have hle : ts ≤ n := Nat.le_of_not_lt hts
      have hnl : n < l.length := by omega
      have hred : luOuter l ts (n+1)
          = luOuter (luInner ts n l 0 n).1 (ts + (luInner ts n l 0 n).2) n := by
        simp [luOuter, hts]
      obtain ⟨e1, e2, e3, e4⟩ := luInner_spec ts n n l 0 (by omega) hnl
      simp only [Nat.add_zero, Nat.zero_add] at e1 e2 e3 e4
      have hcle : (slice l ts n).count (lget l n) ≤ n - ts := by
        calc (slice l ts n).count (lget l n)
            ≤ (slice l ts n).length := List.count_le_length _ _
          _ = n - ts := slice_length hle (by omega)
      have ihinst := ih (luInner ts n l 0 n).1
        (ts + (slice l ts n).count (lget l n)) (by omega) (by omega)
      rw [hred, e1, ihinst, e4, e3]
      rw [slice_snoc hle hnl, List.reverse_append, List.reverse_singleton,
        List.singleton_append, dedupRev, List.filter_reverse,
        drop_cons_lget hnl]

/-- The in-place dedup equals one right-to-left functional dedup pass. -/
theorem lastUniqueElements_eq_dedupRev (l : List String) :
    lastUniqueElements l = dedupRev l.reverse [] := by
  have h := luOuter_spec l.length l 0 (Nat.zero_le _) (Nat.le_refl _)
  rw [slice_zero_length, List.drop_length] at h
  exact h

theorem lastUniqueSpec_append_singleton (x : String) :
    ∀ ys, lastUniqueSpec (ys ++ [x])
      = lastUniqueSpec (ys.filter (fun y => y ≠ x)) ++ [x] := by
  intro ys
  induction ys with
  | nil => simp [lastUniqueSpec]
  | cons y ys ih =>
    by_cases hyx : y = x
    · subst hyx
      simp [lastUniqueSpec, List.filter_cons, ih]
    · by_cases hin : y ∈ ys
      · simp [lastUniqueSpec, List.filter_cons, hyx, hin, ih, List.mem_filter]
      · simp [lastUniqueSpec, List.filter_cons, hyx, hin, ih, List.mem_filter]

theorem dedupRev_eq_spec :
    ∀ (k : Nat) (r : List String), r.length ≤ k → ∀ done,
      dedupRev r done = lastUniqueSpec r.reverse ++ done := by
  intro k
  induction k with
  | zero =>
    intro r h done
    have hr : r = [] := List.eq_nil_of_length_eq_zero (Nat.le_zero.mp h)
    subst hr
    simp [dedupRev, lastUniqueSpec]
  | succ k ih =>
    intro r h done
    match r with
    | [] => simp [dedupRev, lastUniqueSpec]
    | x :: rest =>
      rw [dedupRev]
      have hlen : (rest.filter (fun y => y ≠ x)).length ≤ k := by
        have := List.length_filter_le (fun y => decide (y ≠ x)) rest
        simp only [List.length_cons] at h
        omega
      rw [ih _ hlen (x :: done), List.reverse_cons,
        lastUniqueSpec_append_singleton, List.filter_reverse]
      simp

/-- `lastUniqueElements` (the faithful translation of the in-place Go
algorithm) computes exactly the keep-the-last-occurrence dedup. -/
theorem lastUniqueElements_eq_spec (l : List String) :
    lastUniqueElements l = lastUniqueSpec l := by
  rw [lastUniqueElements_eq_dedupRev,
    dedupRev_eq_spec l.reverse.length l.reverse (Nat.le_refl _) [],
    List.reverse_reverse, List.append_nil]

theorem mem_lastUniqueSpec {a : String} : ∀ {l : List String},
    a ∈ lastUniqueSpec l ↔ a ∈ l := by
  intro l
  induction l with
  | nil => simp [lastUniqueSpec]
  | cons x xs ih =>
    by_cases h : x ∈ xs
    · rw [lastUniqueSpec, if_pos h]
      constructor
      · intro hm
        exact List.mem_cons_of_mem x (ih.mp hm)
      · intro hm
        rcases List.mem_cons.mp hm with rfl | hm
        · exact ih.mpr h
        · exact ih.mpr hm
    · rw [lastUniqueSpec, if_neg h]
      simp [ih]

theorem lastUniqueSpec_nodup : ∀ (l : List String), (lastUniqueSpec l).Nodup := by
  intro l
  induction l with
  | nil => simp [lastUniqueSpec]
  | cons x xs ih =>
    by_cases h : x ∈ xs
    · rw [lastUniqueSpec, if_pos h]; exact ih
    · rw [lastUniqueSpec, if_neg h]
      exact List.nodup_cons.mpr ⟨fun hm => h (mem_lastUniqueSpec.mp hm), ih⟩

theorem lastUniqueSpec_sublist : ∀ (l : List String), (lastUniqueSpec l).Sublist l := by
  intro l
  induction l with
  | nil => simp [lastUniqueSpec]
  | cons x xs ih =>
    by_cases h : x ∈ xs
    · rw [lastUniqueSpec, if_pos h]; exact List.Sublist.cons x ih
    · rw [lastUniqueSpec, if_neg h]; exact List.Sublist.cons₂ x ih

theorem lastUniqueSpec_of_nodup : ∀ {l : List String}, l.Nodup → lastUniqueSpec l = l := by
  intro l
  induction l with
  | nil => intro _; rfl
  | cons x xs ih =>
    intro h
    obtain ⟨hx, hxs⟩ := List.nodup_cons.mp h
    rw [lastUniqueSpec, if_neg hx, ih hxs]

theorem lastUniqueElements_idem (l : List String) :
    lastUniqueElements (lastUniqueElements l) = lastUniqueElements l := by
  rw [lastUniqueElements_eq_spec, lastUniqueElements_eq_spec,
    lastUniqueSpec_of_nodup (lastUniqueSpec_nodup l)]

/-! ## Data model: dependency-name lists, flags, contexts -/

/-- Modelled from the spec: the repository's `inList` helper (defined in
the build system's shared utility file, not in this source file):
membership of a name in a string list. -/
def inList (s : String) (list : List String) : Bool := list.contains s

/-- Modelled from the spec: the repository's `filterList` helper (defined
in the shared utility file, not in this source file).  Used by the code
under verification to strip a denylist from a flag list and to move
specific names from one bucket to another: it splits a list into
(elements not in `filter`, elements in `filter`), preserving order. -/
def filterList (list filter : List String) : List String × List String :=
  (list.filter (fun l => !(inList l filter)),
   list.filter (fun l => inList l filter))

/-- `Deps` (cc.go:181-195): accumulated dependency-name lists, one
ordering bucket per role. -/
structure Deps where
  SharedLibs : List String := []
  LateSharedLibs : List String := []
  StaticLibs : List String := []
  LateStaticLibs : List String := []
  WholeStaticLibs : List String := []
  ReexportSharedLibHeaders : List String := []
  ReexportStaticLibHeaders : List String := []
  ObjFiles : List String := []
  GeneratedSources : List String := []
  GeneratedHeaders : List String := []
  Cflags : List String := []
  ReexportedCflags : List String := []
  CrtBegin : String := ""
  CrtEnd : String := ""
deriving DecidableEq

/-- A `ctx.PropertyErrorf(property, format, name)` call: a property-level
configuration error attached to the named property. -/
structure PropertyError where
  property : String
  format : String
  arg : String
deriving DecidableEq

/-- The slice of `BaseModuleContext` read by the dependency stages:
`ctx.Device()`, the module name, and `Properties.Sdk_version` (through
`moduleContextImpl.sdk`/`sdkVersion`, cc.go:640-652). -/
structure DepsCtx where
  device : Bool
  moduleName : String
  sdkVersionProp : String
deriving DecidableEq

/-- `moduleContextImpl.sdk` (cc.go:640-645). -/
def DepsCtx.sdk (ctx : DepsCtx) : Bool :=
  ctx.device && ctx.sdkVersionProp != ""

/-- `moduleContextImpl.sdkVersion` (cc.go:647-652). -/
def DepsCtx.sdkVersion (ctx : DepsCtx) : String :=
  if ctx.device then ctx.sdkVersionProp else ""

/-- `proptools.Bool` on a `*bool` property: nil means false. -/
def pbool (b : Option Bool) : Bool := b.getD false

/-- The fields of `BaseCompilerProperties` (cc.go:232-294) read by the
dependency and variant stages under verification. -/
structure BaseCompilerProperties where
  Srcs : List String := []
  Generated_sources : List String := []
  Generated_headers : List String := []
deriving DecidableEq

/-- The fields of `BaseLinkerProperties` (cc.go:296-340) read by the
dependency stages under verification. -/
structure BaseLinkerProperties where
  Whole_static_libs : List String := []
  Static_libs : List String := []
  Shared_libs : List String := []
  System_shared_libs : Option (List String) := none
  No_libgcc : Option Bool := none
  Export_shared_lib_headers : List String := []
  Export_static_lib_headers : List String := []
deriving DecidableEq

/-! ## Dependency classification -/

/-- `baseCompiler.deps` (cc.go:1082-1087). -/
def baseCompilerDeps (props : BaseCompilerProperties) (deps : Deps) : Deps :=
  { deps with
    GeneratedSources := deps.GeneratedSources ++ props.Generated_sources,
    GeneratedHeaders := deps.GeneratedHeaders ++ props.Generated_headers }

/-- `baseLinker.deps` (cc.go:1299-1337).  `static` is
`linker.static()`, i.e. `dynamicProperties.VariantIsStatic`. -/
def baseLinkerDeps (ctx : DepsCtx) (static : Bool)
    (props : BaseLinkerProperties) (deps : Deps) : Deps :=
  let deps := { deps with
    WholeStaticLibs := deps.WholeStaticLibs ++ props.Whole_static_libs,
    StaticLibs := deps.StaticLibs ++ props.Static_libs,
    SharedLibs := deps.SharedLibs ++ props.Shared_libs,
    ReexportStaticLibHeaders :=
      deps.ReexportStaticLibHeaders ++ props.Export_static_lib_headers,
    ReexportSharedLibHeaders :=
      deps.ReexportSharedLibHeaders ++ props.Export_shared_lib_headers }
  let deps :=
    if !ctx.sdk && ctx.moduleName ≠ "libcompiler_rt-extras" then
      { deps with StaticLibs := deps.StaticLibs ++ ["libcompiler_rt-extras"] }
    else deps
  if ctx.device then
    -- libgcc and libatomic have to be last on the command line
    let deps := { deps with LateStaticLibs := deps.LateStaticLibs ++ ["libatomic"] }
    let deps :=
      if !pbool props.No_libgcc then
        { deps with LateStaticLibs := deps.LateStaticLibs ++ ["libgcc"] }
      else deps
    let deps :=
      if !static then
        match props.System_shared_libs with
        | some libs => { deps with LateSharedLibs := deps.LateSharedLibs ++ libs }
        | none =>
          if !ctx.sdk then
            { deps with LateSharedLibs := deps.LateSharedLibs ++ ["libc", "libm"] }
          else deps
      else deps
    if ctx.sdk then
      { deps with SharedLibs := deps.SharedLibs ++
          ["ndk_libc." ++ ctx.sdkVersion, "ndk_libm." ++ ctx.sdkVersion] }
    else deps
  else deps

/-- `binaryLinker.deps` (cc.go:1903-1941).  `staticBinary` is
`binary.buildStatic()` (= `baseLinker.staticBinary()`, which for a
binary coincides with `linker.static()`); `buildShared()` is its
negation.  Returns the classified buckets together with the
module-level errors raised by `ctx.ModuleErrorf`. -/
def binaryLinkerDeps (ctx : DepsCtx) (staticBinary : Bool)
    (props : BaseLinkerProperties) (deps : Deps) : Deps × List String :=
  let deps := baseLinkerDeps ctx staticBinary props deps
  let deps :=
    if ctx.device then
      let deps :=
        if !ctx.sdk then
          { deps with
            CrtBegin := if staticBinary then "crtbegin_static" else "crtbegin_dynamic",
            CrtEnd := "crtend_android" }
        else
          { deps with
            CrtBegin := (if staticBinary then "ndk_crtbegin_static." else "ndk_crtbegin_dynamic.")
              ++ ctx.sdkVersion,
            CrtEnd := "ndk_crtend_android." ++ ctx.sdkVersion }
      if staticBinary then
        let deps :=
          if inList "libc++_static" deps.StaticLibs then
            { deps with StaticLibs := deps.StaticLibs ++ ["libm", "libc", "libdl"] }
          else deps
        -- move group-linked static libraries to the front of LateStaticLibs
        let p := filterList deps.StaticLibs ["libc", "libc_nomalloc", "libcompiler_rt"]
        { deps with StaticLibs := p.1, LateStaticLibs := p.2 ++ deps.LateStaticLibs }
      else deps
    else deps
  if !staticBinary && inList "libc" deps.StaticLibs then
    (deps, ["statically linking libc to dynamic executable, please remove libc\nfrom static libs or set static_executable: true"])
  else (deps, [])

/-- The dedup-and-validate tail of `Module.deps` (cc.go:802-820):
deduplicate the five ordering buckets keeping the last occurrence, then
report a property error for every re-export name missing from its base
bucket. -/
def cModuleDeps (deps : Deps) : Deps × List PropertyError :=
  let deps := { deps with
    WholeStaticLibs := lastUniqueElements deps.WholeStaticLibs,
    StaticLibs := lastUniqueElements deps.StaticLibs,
    LateStaticLibs := lastUniqueElements deps.LateStaticLibs,
    SharedLibs := lastUniqueElements deps.SharedLibs,
    LateSharedLibs := lastUniqueElements deps.LateSharedLibs }
  let errs :=
    (deps.ReexportSharedLibHeaders.filter
        (fun lib => !(inList lib deps.SharedLibs))).map
      (fun lib => PropertyError.mk "export_shared_lib_headers"
        "Shared library not in shared_libs: '%s'" lib)
    ++ (deps.ReexportStaticLibHeaders.filter
        (fun lib => !(inList lib deps.StaticLibs))).map
      (fun lib => PropertyError.mk "export_static_lib_headers"
        "Static library not in static_libs: '%s'" lib)
  (deps, errs)

/-- `Module.deps` (cc.go:783-821) instantiated for a `cc_binary` module:
compiler stage `baseCompiler.deps`, linker stage `binaryLinker.deps`,
then bucket dedup and re-export validation.  The `stl`, `sanitize` and
feature stages are implemented outside this source file and are omitted
(they only append further names). -/
def moduleDepsBinary (ctx : DepsCtx) (staticBinary : Bool)
    (comp : BaseCompilerProperties) (link : BaseLinkerProperties) :
    Deps × List String × List PropertyError :=
  let deps := baseCompilerDeps comp {}
  let p := binaryLinkerDeps ctx staticBinary link deps
  let q := cModuleDeps p.1
  (q.1, p.2, q.2)

/-! ## Variant expander: the link-mode mutator -/

/-- The per-mode sub-structures of `LibraryCompilerProperties`
(cc.go:342-353), flattened: `Static.Srcs`, `Static.Cflags`,
`Shared.Srcs`, `Shared.Cflags` (the `Exclude_srcs` fields are not read
by the stages under verification). -/
structure LibraryCompilerProperties where
  StaticSrcs : List String := []
  StaticCflags : List String := []
  SharedSrcs : List String := []
  SharedCflags : List String := []
deriving DecidableEq

/-- One sibling produced by the link-mode split: its variation name, its
`linker.static()` flag after `setStatic`, and its
`baseCompiler.Properties.Srcs` after the mutator possibly cleared
them. -/
structure LinkVariant where
  variantName : String
  isStatic : Bool
  compilerSrcs : List String
deriving DecidableEq

/-- Result of `linkageMutator` on one module: either the created sibling
variants together with whether a `reuseObjTag` inter-variant dependency
was added from the shared sibling to the static one, or a Go `panic`. -/
inductive LinkageResult where
  | variants (mods : List LinkVariant) (reuseEdge : Bool)
  | panicked (msg : String)
deriving DecidableEq

/-- `linkageMutator` (cc.go:2559-2593) for a module whose linker
implements `baseLinkerInterface`.  `srcs` is the module's
`baseCompiler.Properties.Srcs`; `compilerProps` is `some` exactly when
the module's compiler is a `*libraryCompiler` (carrying the per-mode
properties read by the reuse gate). -/
def linkageMutator (moduleName : String) (buildStatic buildShared : Bool)
    (srcs : List String) (compilerProps : Option LibraryCompilerProperties) :
    LinkageResult :=
  if buildStatic && buildShared then
    match compilerProps with
    | some lp =>
      if lp.StaticCflags.length == 0 && lp.SharedCflags.length == 0 then
        -- Optimize out compiling common .o files twice for static+shared libraries
        .variants [⟨"static", true, srcs⟩, ⟨"shared", false, []⟩] true
      else
        .variants [⟨"static", true, srcs⟩, ⟨"shared", false, srcs⟩] false
    | none => .variants [⟨"static", true, srcs⟩, ⟨"shared", false, srcs⟩] false
  else if buildStatic then
    .variants [⟨"static", true, srcs⟩] false
  else if buildShared then
    .variants [⟨"shared", false, srcs⟩] false
  else
    .panicked ("library \"" ++ moduleName ++ "\" not static or shared")

/-! ## Dependency edges: tags and the deps mutator -/

/-- `dependencyTag` (cc.go:504-510). -/
structure dependencyTag where
  name : String
  library : Bool := false
  reexportFlags : Bool := false
deriving DecidableEq

/-- The tag values of cc.go:512-526. -/
def sharedDepTag : dependencyTag := { name := "shared", library := true }

def sharedExportDepTag : dependencyTag :=
  { name := "shared", library := true, reexportFlags := true }

def lateSharedDepTag : dependencyTag := { name := "late shared", library := true }

def staticDepTag : dependencyTag := { name := "static", library := true }

def staticExportDepTag : dependencyTag :=
  { name := "static", library := true, reexportFlags := true }

def lateStaticDepTag : dependencyTag := { name := "late static", library := true }

def wholeStaticDepTag : dependencyTag :=
  { name := "whole static", library := true, reexportFlags := true }

def genSourceDepTag : dependencyTag := { name := "gen source" }

def genHeaderDepTag : dependencyTag := { name := "gen header" }

def objDepTag : dependencyTag := { name := "obj" }

def crtBeginDepTag : dependencyTag := { name := "crtbegin" }

def crtEndDepTag : dependencyTag := { name := "crtend" }

def reuseObjTag : dependencyTag := { name := "reuse objects" }

/-- A `blueprint.Variation` as requested by
`AddVariationDependencies`. -/
structure Variation where
  mutator : String
  variation : String
deriving DecidableEq

/-- One dependency edge requested by `Module.depsMutator`: the variation
list (empty for plain `AddDependency`), the tag, and the target name. -/
structure DepEdge where
  variations : List Variation
  tag : dependencyTag
  target : String
deriving DecidableEq

/-- The edge-creation tail of `Module.depsMutator` (cc.go:842-879),
applied to the classified `Deps` returned by `Module.deps`.  (The Go
loops over `deps.StaticLibs` and `deps.SharedLibs` pass the whole list
to `AddVariationDependencies` on each iteration; this is translated
verbatim.) -/
def depsMutatorEdges (deps : Deps) : List DepEdge :=
  deps.WholeStaticLibs.map (fun lib =>
    ⟨[⟨"link", "static"⟩], wholeStaticDepTag, lib⟩)
  ++ (deps.StaticLibs.map (fun lib =>
        let depTag := if inList lib deps.ReexportStaticLibHeaders then
          staticExportDepTag else staticDepTag
        deps.StaticLibs.map (fun l =>
          (⟨[⟨"link", "static"⟩], depTag, l⟩ : DepEdge)))).flatten
  ++ deps.LateStaticLibs.map (fun lib =>
      ⟨[⟨"link", "static"⟩], lateStaticDepTag, lib⟩)
  ++ (deps.SharedLibs.map (fun lib =>
        let depTag := if inList lib deps.ReexportSharedLibHeaders then
          sharedExportDepTag else sharedDepTag
        deps.SharedLibs.map (fun l =>
          (⟨[⟨"link", "shared"⟩], depTag, l⟩ : DepEdge)))).flatten
  ++ deps.LateSharedLibs.map (fun lib =>
      ⟨[⟨"link", "shared"⟩], lateSharedDepTag, lib⟩)
  ++ deps.GeneratedSources.map (fun m => ⟨[], genSourceDepTag, m⟩)
  ++ deps.GeneratedHeaders.map (fun m => ⟨[], genHeaderDepTag, m⟩)
  ++ deps.ObjFiles.map (fun m => ⟨[], objDepTag, m⟩)
  ++ (if deps.CrtBegin ≠ "" then [⟨[], crtBeginDepTag, deps.CrtBegin⟩] else [])
  ++ (if deps.CrtEnd ≠ "" then [⟨[], crtEndDepTag, deps.CrtEnd⟩] else [])

/-! ## Dependency resolution -/

/-- `PathDeps` (cc.go:197-210): per-bucket resolved artifact paths
(paths modelled as strings). -/
structure PathDeps where
  SharedLibs : List String := []
  LateSharedLibs : List String := []
  StaticLibs : List String := []
  LateStaticLibs : List String := []
  WholeStaticLibs : List String := []
  ObjFiles : List String := []
  WholeStaticLibObjFiles : List String := []
  GeneratedSources : List String := []
  GeneratedHeaders : List String := []
  Cflags : List String := []
  ReexportedCflags : List String := []
  CrtBegin : Option String := none
  CrtEnd : Option String := none
deriving DecidableEq

/-- The slice of the requesting module's context read by
`Module.depsToPaths` (cc.go:909-936). -/
structure ResolveCtx where
  moduleName : String
  os : String
  archType : String
  targetOsAndroid : Bool
  sdkVersionProp : String
deriving DecidableEq

/-- The slice of a visited direct dependency (a cc `*Module` and its
`android.Module` view) read by `Module.depsToPaths` (cc.go:938-1056). -/
structure DepModule where
  name : String
  enabled : Bool := true
  os : String
  archType : String
  outputFile : Option String := none
  isLibraryLinker : Bool := false
  linkerStatic : Bool := false
  objFiles : List String := []
  wholeStaticMissingDeps : Option (List String) := none
  exportedFlags : Option (List String) := none
  reuseObjFiles : List String := []
  alwaysLinkable : Bool := false
  sdkVersionProp : String := ""
deriving DecidableEq

/-- The `linkTypeOk` closure of `Module.depsToPaths` (cc.go:914-936).
`dep.alwaysLinkable` stands for a `*toolchainLibraryLinker`,
`*ndkPrebuiltLibraryLinker` or `*ndkPrebuiltStlLinker` target. -/
def linkTypeOk (ctx : ResolveCtx) (dep : DepModule) : Bool :=
  if !ctx.targetOsAndroid then true
  else if ctx.sdkVersionProp = "" then true
  else if dep.alwaysLinkable then true
  else dep.sdkVersionProp != ""

/-- State threaded through the `VisitDirectDeps` callback:
the accumulating `PathDeps`, the module errors raised by
`ctx.ModuleErrorf`, and the names recorded by
`ctx.AddMissingDependencies`. -/
structure ResolveState where
  paths : PathDeps := {}
  errors : List String := []
  missingDeps : List String := []
deriving DecidableEq

/-- The per-dependency body of the `ctx.VisitDirectDeps` callback in
`Module.depsToPaths` (cc.go:938-1056), for a dependency that is itself a
cc `*Module`.  `ctx.ModuleErrorf` appends to `errors`,
`ctx.AddMissingDependencies` appends to `missingDeps`; the Go `panic` on
an unknown dependency tag is `Except.error`. -/
def visitDep (ctx : ResolveCtx) (st : ResolveState) (tag : dependencyTag)
    (dep : DepModule) : Except String ResolveState :=
  if !dep.enabled then
    .ok { st with errors := st.errors ++
      ["depends on disabled module \"" ++ dep.name ++ "\""] }
  else if dep.os ≠ ctx.os then
    .ok { st with errors := st.errors ++
      ["OS mismatch between \"" ++ ctx.moduleName ++ "\" and \"" ++ dep.name ++ "\""] }
  else if dep.archType ≠ ctx.archType then
    .ok { st with errors := st.errors ++
      ["Arch mismatch between \"" ++ ctx.moduleName ++ "\" and \"" ++ dep.name ++ "\""] }
  else
    match dep.outputFile with
    | none => .ok { st with errors := st.errors ++
        ["module \"" ++ dep.name ++ "\" missing output file"] }
    | some out =>
      if tag = reuseObjTag then
        .ok { st with paths :=
          { st.paths with ObjFiles := st.paths.ObjFiles ++ dep.reuseObjFiles } }
      else
        let st :=
          if tag.library then
            let st :=
              match dep.exportedFlags with
              | some cflags =>
                let paths := { st.paths with Cflags := st.paths.Cflags ++ cflags }
                let paths :=
                  if tag.reexportFlags then
                    { paths with ReexportedCflags := paths.ReexportedCflags ++ cflags }
                  else paths
                { st with paths := paths }
              | none => st
            if !linkTypeOk ctx dep then
              { st with errors := st.errors ++
                ["depends on non-NDK-built library \"" ++ dep.name ++ "\""] }
            else st
          else st
        if tag = sharedDepTag ∨ tag = sharedExportDepTag then
          .ok { st with paths :=
            { st.paths with SharedLibs := st.paths.SharedLibs ++ [out] } }
        else if tag = lateSharedDepTag then
          .ok { st with paths :=
            { st.paths with LateSharedLibs := st.paths.LateSharedLibs ++ [out] } }
        else if tag = staticDepTag ∨ tag = staticExportDepTag then
          .ok { st with paths :=
            { st.paths with StaticLibs := st.paths.StaticLibs ++ [out] } }
        else if tag = lateStaticDepTag then
          .ok { st with paths :=
            { st.paths with LateStaticLibs := st.paths.LateStaticLibs ++ [out] } }
        else if tag = wholeStaticDepTag then
          if !dep.isLibraryLinker || !dep.linkerStatic then
            .ok { st with errors := st.errors ++
              ["module \"" ++ dep.name ++ "\" not a static library"] }
          else
            let st :=
              match dep.wholeStaticMissingDeps with
              | some missing =>
                { st with missingDeps := st.missingDeps ++
                  missing.map (fun d => d ++ " (required by " ++ dep.name ++ ")") }
              | none => st
            let st := { st with paths :=
              { st.paths with WholeStaticLibObjFiles :=
                  st.paths.WholeStaticLibObjFiles ++ dep.objFiles } }
            .ok { st with paths :=
              { st.paths with WholeStaticLibs := st.paths.WholeStaticLibs ++ [out] } }
        else if tag = objDepTag then
          .ok { st with paths :=
            { st.paths with ObjFiles := st.paths.ObjFiles ++ [out] } }
        else if tag = crtBeginDepTag then
          .ok { st with paths := { st.paths with CrtBegin := some out } }
        else if tag = crtEndDepTag then
          .ok { st with paths := { st.paths with CrtEnd := some out } }
        else
          .error ("unknown dependency tag: " ++ tag.name)

/-! ## Link planning -/

/-- The outputs of `libraryLinker.linkStatic` (cc.go:1642-1662) relevant
to dependency propagation: `library.objFiles` (whole-static absorbed
objects first, then the module's own objects) and what
`getWholeStaticMissingDeps` later returns to consumers
(`ctx.GetMissingDependencies()`, the names recorded during this
module's resolution). -/
structure StaticLinkOutputs where
  objFiles : List String
  wholeStaticMissingDeps : List String
deriving DecidableEq

/-- `libraryLinker.linkStatic` (cc.go:1642-1662), restricted to the two
propagated outputs. -/
def linkStaticOutputs (deps : PathDeps) (objFiles : List String)
    (recordedMissingDeps : List String) : StaticLinkOutputs :=
  { objFiles := deps.WholeStaticLibObjFiles ++ objFiles,
    wholeStaticMissingDeps := recordedMissingDeps }

/-- The shared-library link input assembled by `libraryLinker.linkShared`
(cc.go:1717-1718): the late-shared bucket is appended after the whole
ordinary shared bucket. -/
def linkSharedSharedLibs (deps : PathDeps) : List String :=
  deps.SharedLibs ++ deps.LateSharedLibs

/-- The same list as assembled by `binaryLinker.link`
(cc.go:2059-2060). -/
def binaryLinkSharedLibs (deps : PathDeps) : List String :=
  deps.SharedLibs ++ deps.LateSharedLibs

/-! ## Flag composition: the final illegal-flag filter -/

/-- `Flags` (cc.go:212-230): the ordered flag lists keyed by artifact
class (the non-list fields `Nocrt`, `Toolchain`, `Clang`,
`RequiredInstructionSet`, `DynamicLinker`, `CFlagsDeps` do not
participate in the filter step and are omitted). -/
structure Flags where
  GlobalFlags : List String := []
  AsFlags : List String := []
  CFlags : List String := []
  ConlyFlags : List String := []
  CppFlags : List String := []
  YaccFlags : List String := []
  LdFlags : List String := []
  libFlags : List String := []
deriving DecidableEq

/-- `illegalFlags` (cc.go:115-118). -/
def illegalFlags : List String := ["-w"]

/-- The final illegal-flag filter of `Module.GenerateAndroidBuildActions`
(cc.go:707-709), applied once after all flag-composition stages. -/
def stripIllegalFlags (flags : Flags) : Flags :=
  { flags with
    CFlags := (filterList flags.CFlags illegalFlags).1,
    CppFlags := (filterList flags.CppFlags illegalFlags).1,
    ConlyFlags := (filterList flags.ConlyFlags illegalFlags).1 }

/-! ## Supporting lemmas about the classification functions -/

theorem inList_iff_mem (s : String) (l : List String) :
    inList s l = true ↔ s ∈ l := by
  simp [inList, List.contains, List.elem_iff]

theorem inList_eq_false (s : String) (l : List String) :
    (inList s l = false) ↔ s ∉ l := by
  constructor
  · intro h hm
    rw [← inList_iff_mem] at hm
    simp [h] at hm
  · intro h
    cases hb : inList s l
    · rfl
    · exact absurd ((inList_iff_mem s l).mp hb) h

theorem baseLinkerDeps_StaticLibs (ctx : DepsCtx) (static : Bool)
    (props : BaseLinkerProperties) (deps : Deps) :
    (baseLinkerDeps ctx static props deps).StaticLibs
      = deps.StaticLibs ++ props.Static_libs
        ++ (if !ctx.sdk && ctx.moduleName ≠ "libcompiler_rt-extras"
            then ["libcompiler_rt-extras"] else []) := by
  unfold baseLinkerDeps
  cases props.System_shared_libs <;> split_ifs <;> simp_all

theorem baseLinkerDeps_LateStaticLibs (ctx : DepsCtx) (static : Bool)
    (props : BaseLinkerProperties) (deps : Deps) :
    (baseLinkerDeps ctx static props deps).LateStaticLibs
      = deps.LateStaticLibs
        ++ (if ctx.device then
              ["libatomic"] ++ (if !pbool props.No_libgcc then ["libgcc"] else [])
            else []) := by
  unfold baseLinkerDeps
  cases props.System_shared_libs <;> split_ifs <;> simp_all

theorem baseLinkerDeps_LateSharedLibs (ctx : DepsCtx) (static : Bool)
    (props : BaseLinkerProperties) (deps : Deps) :
    (baseLinkerDeps ctx static props deps).LateSharedLibs
      = deps.LateSharedLibs
        ++ (if ctx.device && !static then
              (match props.System_shared_libs with
               | some libs => libs
               | none => if !ctx.sdk then ["libc", "libm"] else [])
            else []) := by
  unfold baseLinkerDeps
  cases props.System_shared_libs <;> split_ifs <;> simp_all

theorem baseLinkerDeps_SharedLibs (ctx : DepsCtx) (static : Bool)
    (props : BaseLinkerProperties) (deps : Deps) :
    (baseLinkerDeps ctx static props deps).SharedLibs
      = deps.SharedLibs ++ props.Shared_libs
        ++ (if ctx.device && ctx.sdk then
              ["ndk_libc." ++ ctx.sdkVersion, "ndk_libm." ++ ctx.sdkVersion]
            else []) := by
  unfold baseLinkerDeps
  cases props.System_shared_libs <;> split_ifs <;> simp_all

theorem cModuleDeps_errors (deps : Deps) (e : PropertyError) :
    e ∈ (cModuleDeps deps).2 ↔
      ((e.property = "export_shared_lib_headers"
         ∧ e.format = "Shared library not in shared_libs: '%s'"
         ∧ e.arg ∈ deps.ReexportSharedLibHeaders
         ∧ e.arg ∉ lastUniqueElements deps.SharedLibs)
      ∨ (e.property = "export_static_lib_headers"
         ∧ e.format = "Static library not in static_libs: '%s'"
         ∧ e.arg ∈ deps.ReexportStaticLibHeaders
         ∧ e.arg ∉ lastUniqueElements deps.StaticLibs)) := by
  cases e with
  | mk p f a =>
    simp [cModuleDeps, List.mem_append, List.mem_map, List.mem_filter,
      inList_eq_false, PropertyError.mk.injEq]
    constructor
    · rintro (⟨x, ⟨hx, hnx⟩, rfl, rfl, rfl⟩ | ⟨x, ⟨hx, hnx⟩, rfl, rfl, rfl⟩)
      · exact Or.inl ⟨rfl, rfl, hx, hnx⟩
      · exact Or.inr ⟨rfl, rfl, hx, hnx⟩
    · rintro (⟨rfl, rfl, hx, hnx⟩ | ⟨rfl, rfl, hx, hnx⟩)
      · exact Or.inl ⟨a, ⟨hx, hnx⟩, rfl, rfl, rfl⟩
      · exact Or.inr ⟨a, ⟨hx, hnx⟩, rfl, rfl, rfl⟩

/-! ## The claims -/

/-- Claim C1, counterexample: a device binary requesting a static
executable (`static_executable: true`) while statically linking the C
runtime (`static_libs: ["libc"]`) is accepted by `binaryLinker.deps` —
the module-error list is empty, libc being moved into the late-static
group bucket — contradicting the claim that this inverse case is
likewise rejected with an error. -/
theorem C1_static_executable_libc_accepted_counterexample :
    (binaryLinkerDeps ⟨true, "bin", ""⟩ true { Static_libs := ["libc"] } {}).2 = []
    ∧ "libc" ∈ (binaryLinkerDeps ⟨true, "bin", ""⟩ true
        { Static_libs := ["libc"] } {}).1.LateStaticLibs := by
  constructor
  · rfl
  · decide

/-- Claim C1, amended: a binary building a dynamic executable with the C
runtime in its static-libs list is rejected by `binaryLinker.deps` with
a module-level error; the inverse case — a binary requesting a static
executable that statically links the C runtime — is accepted with no
error, libc being moved into the late-static (group-link) bucket on
device builds. -/
theorem C1_dynamic_libc_rejected_static_accepted (ctx : DepsCtx)
    (props : BaseLinkerProperties) (deps : Deps) :
    ("libc" ∈ props.Static_libs →
      (binaryLinkerDeps ctx false props deps).2
        = ["statically linking libc to dynamic executable, please remove libc\nfrom static libs or set static_executable: true"])
    ∧ ((binaryLinkerDeps ctx true props deps).2 = [])
    ∧ (ctx.device = true → "libc" ∈ props.Static_libs →
        "libc" ∈ (binaryLinkerDeps ctx true props deps).1.LateStaticLibs) := by
  refine ⟨?_, ?_, ?_⟩
  · intro h
    have hmem : "libc" ∈ (baseLinkerDeps ctx false props deps).StaticLibs := by
      rw [baseLinkerDeps_StaticLibs]
      simp [h]
    unfold binaryLinkerDeps
    split_ifs <;> simp_all [inList_iff_mem]
  · unfold binaryLinkerDeps
    split_ifs <;> simp_all
  · intro hd h
    have hmem : "libc" ∈ (baseLinkerDeps ctx true props deps).StaticLibs := by
      rw [baseLinkerDeps_StaticLibs]
      simp [h]
    unfold binaryLinkerDeps
    split_ifs <;> simp_all [filterList, List.mem_filter, inList_iff_mem] <;>
      (left; split_ifs <;> simp [hmem])

/-- Claim C2, counterexample: a library built both static and shared
whose shared mode declares a mode-specific extra source (and no
mode-specific cflags) still gets the cross-variant object-reuse edge,
and its shared sibling's common source list is cleared — contradicting
the claim that the reuse is gated on "no per-mode extra sources" and
that such a sibling compiles its own objects. -/
theorem C2_shared_srcs_reuse_counterexample :
    linkageMutator "libfoo" true true ["common.c"]
        (some { SharedSrcs := ["extra_shared.c"] })
      = LinkageResult.variants
          [⟨"static", true, ["common.c"]⟩, ⟨"shared", false, []⟩] true := by
  rfl

/-- Claim C2, amended: for a both-mode library the cross-variant
object-reuse edge is created if and only if neither link mode declares
mode-specific extra cflags (`static.cflags` and `shared.cflags` both
empty); mode-specific extra sources play no part in the gate.  When the
edge is created, the shared sibling's common source list is cleared. -/
theorem C2_reuse_gated_on_mode_cflags (moduleName : String)
    (srcs : List String) (lp : LibraryCompilerProperties) :
    ∃ sharedSrcs reuse,
      linkageMutator moduleName true true srcs (some lp)
        = LinkageResult.variants
            [⟨"static", true, srcs⟩, ⟨"shared", false, sharedSrcs⟩] reuse
      ∧ (reuse = true ↔ lp.StaticCflags = [] ∧ lp.SharedCflags = [])
      ∧ sharedSrcs = (if reuse then [] else srcs) := by
  by_cases h : lp.StaticCflags.length == 0 && lp.SharedCflags.length == 0
  · refine ⟨[], true, ?_, ?_, rfl⟩
    · simp [linkageMutator, h]
    · simp only [Bool.and_eq_true, beq_iff_eq, List.length_eq_zero] at h
      simp [h]
  · refine ⟨srcs, false, ?_, ?_, rfl⟩
    · simp [linkageMutator, h]
    · simp only [Bool.and_eq_true, beq_iff_eq, List.length_eq_zero] at h
      simp [h]

/-- Claim C3: for every dependency-name list (whole-static, static,
late-static, shared, late-shared), the deduplication of `Module.deps`
keeps exactly one occurrence of each duplicated name, positioned at the
last insertion index, preserving the relative order of the surviving
elements — each deduplicated bucket equals the keep-the-last-occurrence
filter of its input, is duplicate-free, is a sublist of the input with
the same members — and in particular `[A, B, A]` resolves to
`[B, A]`. -/
theorem C3_lastUnique_dedup_buckets :
    (∀ deps : Deps,
      (cModuleDeps deps).1.WholeStaticLibs = lastUniqueSpec deps.WholeStaticLibs
      ∧ (cModuleDeps deps).1.StaticLibs = lastUniqueSpec deps.StaticLibs
      ∧ (cModuleDeps deps).1.LateStaticLibs = lastUniqueSpec deps.LateStaticLibs
      ∧ (cModuleDeps deps).1.SharedLibs = lastUniqueSpec deps.SharedLibs
      ∧ (cModuleDeps deps).1.LateSharedLibs = lastUniqueSpec deps.LateSharedLibs)
    ∧ (∀ l : List String,
      lastUniqueElements l = lastUniqueSpec l
      ∧ (lastUniqueElements l).Nodup
      ∧ (lastUniqueElements l).Sublist l
      ∧ (∀ x, x ∈ lastUniqueElements l ↔ x ∈ l))
    ∧ lastUniqueElements ["A", "B", "A"] = ["B", "A"] := by
  refine ⟨?_, ?_, ?_⟩
  · intro deps
    exact ⟨lastUniqueElements_eq_spec _, lastUniqueElements_eq_spec _,
      lastUniqueElements_eq_spec _, lastUniqueElements_eq_spec _,
      lastUniqueElements_eq_spec _⟩
  · intro l
    refine ⟨lastUniqueElements_eq_spec l, ?_, ?_, ?_⟩
    · rw [lastUniqueElements_eq_spec]; exact lastUniqueSpec_nodup l
    · rw [lastUniqueElements_eq_spec]; exact lastUniqueSpec_sublist l
    · intro x; rw [lastUniqueElements_eq_spec]; exact mem_lastUniqueSpec
  · rfl

/-- Claim C4: every re-export-role name (`export_shared_lib_headers`,
`export_static_lib_headers`) absent from its deduplicated base bucket
produces a property-level configuration error on the corresponding
property (the validation is a total function — it reports to the caller
and does not crash); a name present in the base bucket produces no such
error. -/
theorem C4_reexport_validation (deps : Deps) (lib : String) :
    (lib ∈ deps.ReexportSharedLibHeaders →
        lib ∉ (cModuleDeps deps).1.SharedLibs →
        PropertyError.mk "export_shared_lib_headers"
          "Shared library not in shared_libs: '%s'" lib ∈ (cModuleDeps deps).2)
    ∧ (lib ∈ (cModuleDeps deps).1.SharedLibs →
        PropertyError.mk "export_shared_lib_headers"
          "Shared library not in shared_libs: '%s'" lib ∉ (cModuleDeps deps).2)
    ∧ (lib ∈ deps.ReexportStaticLibHeaders →
        lib ∉ (cModuleDeps deps).1.StaticLibs →
        PropertyError.mk "export_static_lib_headers"
          "Static library not in static_libs: '%s'" lib ∈ (cModuleDeps deps).2)
    ∧ (lib ∈ (cModuleDeps deps).1.StaticLibs →
        PropertyError.mk "export_static_lib_headers"
          "Static library not in static_libs: '%s'" lib ∉ (cModuleDeps deps).2) := by
  have hsh : (cModuleDeps deps).1.SharedLibs = lastUniqueElements deps.SharedLibs := rfl
  have hst : (cModuleDeps deps).1.StaticLibs = lastUniqueElements deps.StaticLibs := rfl
  refine ⟨?_, ?_, ?_, ?_⟩
  · intro h1 h2
    rw [hsh] at h2
    exact (cModuleDeps_errors deps _).mpr (Or.inl ⟨rfl, rfl, h1, h2⟩)
  · intro h hmem
    rw [hsh] at h
    rcases (cModuleDeps_errors deps _).mp hmem with ⟨_, _, _, hn⟩ | ⟨hp, _, _, _⟩
    · exact hn h
    · exact absurd hp (by simp)
  · intro h1 h2
    rw [hst] at h2
    exact (cModuleDeps_errors deps _).mpr (Or.inr ⟨rfl, rfl, h1, h2⟩)
  · intro h hmem
    rw [hst] at h
    rcases (cModuleDeps_errors deps _).mp hmem with ⟨hp, _, _, _⟩ | ⟨_, _, _, hn⟩
    · exact absurd hp (by simp)
    · exact hn h

/-- Claim C5: every whole-static-lib edge is added requesting the static
link-mode variation of its target (the edge builder never consults the
requester's own link mode, so this holds for every classified `Deps`);
and at resolution, a whole-static edge whose target is not a
static-library variant produces a module-level error while recording no
path or objects from that target (all path buckets, object lists, crt
slots and the missing-dependency record are left unchanged). -/
theorem C5_whole_static_requests_static_variant (deps : Deps) (lib : String)
    (ctx : ResolveCtx) (st : ResolveState) (dep : DepModule) (out : String) :
    (lib ∈ deps.WholeStaticLibs →
      DepEdge.mk [⟨"link", "static"⟩] wholeStaticDepTag lib ∈ depsMutatorEdges deps)
    ∧ (∀ e ∈ depsMutatorEdges deps, e.tag = wholeStaticDepTag →
        e.variations = [⟨"link", "static"⟩])
    ∧ (dep.enabled = true → dep.os = ctx.os → dep.archType = ctx.archType →
        dep.outputFile = some out →
        ¬(dep.isLibraryLinker = true ∧ dep.linkerStatic = true) →
        ∃ st', visitDep ctx st wholeStaticDepTag dep = .ok st'
          ∧ ("module \"" ++ dep.name ++ "\" not a static library") ∈ st'.errors
          ∧ st'.paths.SharedLibs = st.paths.SharedLibs
          ∧ st'.paths.LateSharedLibs = st.paths.LateSharedLibs
          ∧ st'.paths.StaticLibs = st.paths.StaticLibs
          ∧ st'.paths.LateStaticLibs = st.paths.LateStaticLibs
          ∧ st'.paths.WholeStaticLibs = st.paths.WholeStaticLibs
          ∧ st'.paths.ObjFiles = st.paths.ObjFiles
          ∧ st'.paths.WholeStaticLibObjFiles = st.paths.WholeStaticLibObjFiles
          ∧ st'.paths.CrtBegin = st.paths.CrtBegin
          ∧ st'.paths.CrtEnd = st.paths.CrtEnd
          ∧ st'.missingDeps = st.missingDeps) := by
  refine ⟨?_, ?_, ?_⟩
  · intro h
    simp only [depsMutatorEdges, List.mem_append]
    exact Or.inl (Or.inl (Or.inl (Or.inl (Or.inl (Or.inl (Or.inl (Or.inl (Or.inl
      (List.mem_map_of_mem _ h)))))))))
  · intro e he htag
    simp only [depsMutatorEdges, List.mem_append, List.mem_map,
      List.mem_flatten] at he
    rcases he with ((((((((he | he) | he) | he) | he) | he) | he) | he) | he) | he
    · rcases he with ⟨x, hx, rfl⟩
      rfl
    · rcases he with ⟨l', ⟨x, hx, rfl⟩, hel⟩
      rcases List.mem_map.mp hel with ⟨y, hy, rfl⟩
      rfl
    · rcases he with ⟨x, hx, rfl⟩
      simp [lateStaticDepTag, wholeStaticDepTag, dependencyTag.mk.injEq] at htag
    · rcases he with ⟨l', ⟨x, hx, rfl⟩, hel⟩
      rcases List.mem_map.mp hel with ⟨y, hy, rfl⟩
      split_ifs at htag <;> simp [sharedDepTag, sharedExportDepTag,
        wholeStaticDepTag, dependencyTag.mk.injEq] at htag
    · rcases he with ⟨x, hx, rfl⟩
      simp [lateSharedDepTag, wholeStaticDepTag, dependencyTag.mk.injEq] at htag
    · rcases he with ⟨x, hx, rfl⟩
      simp [genSourceDepTag, wholeStaticDepTag, dependencyTag.mk.injEq] at htag
    · rcases he with ⟨x, hx, rfl⟩
      simp [genHeaderDepTag, wholeStaticDepTag, dependencyTag.mk.injEq] at htag
    · rcases he with ⟨x, hx, rfl⟩
      simp [objDepTag, wholeStaticDepTag, dependencyTag.mk.injEq] at htag
    · split_ifs at he <;> simp_all [crtBeginDepTag, wholeStaticDepTag,
        dependencyTag.mk.injEq]
    · split_ifs at he <;> simp_all [crtEndDepTag, wholeStaticDepTag,
        dependencyTag.mk.injEq]
  · intro h1 h2 h3 h4 h5
    have hns : (!dep.isLibraryLinker || !dep.linkerStatic) = true := by
      cases hb : dep.isLibraryLinker <;> cases hc : dep.linkerStatic <;> simp_all
    cases hef : dep.exportedFlags with
    | none =>
      by_cases hok : linkTypeOk ctx dep <;>
        simp [visitDep, h1, h2, h3, h4, hns, hef, hok, wholeStaticDepTag,
          reuseObjTag, sharedDepTag, sharedExportDepTag, lateSharedDepTag,
          staticDepTag, staticExportDepTag, lateStaticDepTag,
          dependencyTag.mk.injEq]
    | some cf =>
      by_cases hok : linkTypeOk ctx dep <;>
        simp [visitDep, h1, h2, h3, h4, hns, hef, hok, wholeStaticDepTag,
          reuseObjTag, sharedDepTag, sharedExportDepTag, lateSharedDepTag,
          staticDepTag, staticExportDepTag, lateStaticDepTag,
          dependencyTag.mk.injEq]

/-- Claim C6: resolving a whole-static-lib edge to a static-library
variant with recorded missing dependencies forwards each missing name
annotated with " (required by <target>)" into the consumer's recorded
missing-dependency set, and absorbs the target's entire object list
into the consumer's whole-static object set; the consumer's static link
step then records exactly its accumulated missing names for its own
consumers and places the absorbed objects (before its own) in its
archive input. -/
theorem C6_whole_static_missing_dep_forwarding (ctx : ResolveCtx)
    (st : ResolveState) (dep : DepModule) (out : String) (missing : List String)
    (h1 : dep.enabled = true) (h2 : dep.os = ctx.os)
    (h3 : dep.archType = ctx.archType) (h4 : dep.outputFile = some out)
    (h5 : dep.isLibraryLinker = true) (h6 : dep.linkerStatic = true)
    (h7 : dep.wholeStaticMissingDeps = some missing) :
    ∃ st', visitDep ctx st wholeStaticDepTag dep = .ok st'
      ∧ st'.missingDeps = st.missingDeps
          ++ missing.map (fun d => d ++ " (required by " ++ dep.name ++ ")")
      ∧ st'.paths.WholeStaticLibObjFiles
          = st.paths.WholeStaticLibObjFiles ++ dep.objFiles
      ∧ st'.paths.WholeStaticLibs = st.paths.WholeStaticLibs ++ [out]
      ∧ st'.errors = st.errors ++
          (if linkTypeOk ctx dep then [] else
            ["depends on non-NDK-built library \"" ++ dep.name ++ "\""])
      ∧ (∀ ownObjs recorded,
          (linkStaticOutputs st'.paths ownObjs recorded).wholeStaticMissingDeps
            = recorded
          ∧ (linkStaticOutputs st'.paths ownObjs recorded).objFiles
            = st.paths.WholeStaticLibObjFiles ++ dep.objFiles ++ ownObjs) := by
  cases hef : dep.exportedFlags with
  | none =>
    by_cases hok : linkTypeOk ctx dep <;>
      simp [visitDep, h1, h2, h3, h4, h5, h6, h7, hef, hok, wholeStaticDepTag,
        reuseObjTag, sharedDepTag, sharedExportDepTag, lateSharedDepTag,
        staticDepTag, staticExportDepTag, lateStaticDepTag,
        linkStaticOutputs, dependencyTag.mk.injEq]
  | some cf =>
    by_cases hok : linkTypeOk ctx dep <;>
      simp [visitDep, h1, h2, h3, h4, h5, h6, h7, hef, hok, wholeStaticDepTag,
        reuseObjTag, sharedDepTag, sharedExportDepTag, lateSharedDepTag,
        staticDepTag, staticExportDepTag, lateStaticDepTag,
        linkStaticOutputs, dependencyTag.mk.injEq]

/-- Claim C6, witness: static library W records the unresolved
dependency X; a consumer whole-static-linking W ends up with
"X (required by W)" in its missing-dependency record and W's objects in
its whole-static object set. -/
theorem C6_whole_static_missing_dep_forwarding_witness :
    ∃ st', visitDep ⟨"C", "android", "arm", true, ""⟩ {} wholeStaticDepTag
        { name := "W", enabled := true, os := "android", archType := "arm",
          outputFile := some "W.a", isLibraryLinker := true, linkerStatic := true,
          objFiles := ["w1.o"], wholeStaticMissingDeps := some ["X"] } = .ok st'
      ∧ "X (required by W)" ∈ st'.missingDeps
      ∧ st'.paths.WholeStaticLibObjFiles = ["w1.o"] := by
  obtain ⟨st', heq, hmiss, hobj, hwl, herr, hlink⟩ :=
    C6_whole_static_missing_dep_forwarding ⟨"C", "android", "arm", true, ""⟩ {}
      { name := "W", enabled := true, os := "android", archType := "arm",
        outputFile := some "W.a", isLibraryLinker := true, linkerStatic := true,
        objFiles := ["w1.o"], wholeStaticMissingDeps := some ["X"] } "W.a" ["X"]
      rfl rfl rfl rfl rfl rfl rfl
  refine ⟨st', heq, ?_, ?_⟩
  · rw [hmiss]; simp
  · rw [hobj]; rfl

/-- Claim C7: on a device, `baseLinker.deps` places the runtime-support
libraries in the late buckets — `libatomic` always and `libgcc` unless
`no_libgcc` in late-static, and the system shared libraries (the
configured `system_shared_libs`, or `libc`/`libm` by default for
platform modules) in late-shared — while the ordinary static and shared
buckets hold exactly the user-declared names plus
`libcompiler_rt-extras` and the versioned NDK stand-ins; and the link
steps place every late-shared entry after every ordinary shared entry
in the final link input, regardless of declaration order. -/
theorem C7_runtime_libs_late_buckets (ctx : DepsCtx) (static : Bool)
    (props : BaseLinkerProperties) (deps : Deps) (pd : PathDeps) :
    (ctx.device = true →
      "libatomic" ∈ (baseLinkerDeps ctx static props deps).LateStaticLibs
      ∧ (pbool props.No_libgcc = false →
          "libgcc" ∈ (baseLinkerDeps ctx static props deps).LateStaticLibs)
      ∧ (static = false → props.System_shared_libs = none → ctx.sdk = false →
          "libc" ∈ (baseLinkerDeps ctx static props deps).LateSharedLibs
          ∧ "libm" ∈ (baseLinkerDeps ctx static props deps).LateSharedLibs)
      ∧ (∀ libs, props.System_shared_libs = some libs → static = false →
          ∀ x ∈ libs, x ∈ (baseLinkerDeps ctx static props deps).LateSharedLibs))
    ∧ (baseLinkerDeps ctx static props deps).StaticLibs
        = deps.StaticLibs ++ props.Static_libs
          ++ (if !ctx.sdk && ctx.moduleName ≠ "libcompiler_rt-extras"
              then ["libcompiler_rt-extras"] else [])
    ∧ (baseLinkerDeps ctx static props deps).SharedLibs
        = deps.SharedLibs ++ props.Shared_libs
          ++ (if ctx.device && ctx.sdk then
                ["ndk_libc." ++ ctx.sdkVersion, "ndk_libm." ++ ctx.sdkVersion]
              else [])
    ∧ (linkSharedSharedLibs pd).take pd.SharedLibs.length = pd.SharedLibs
    ∧ (linkSharedSharedLibs pd).drop pd.SharedLibs.length = pd.LateSharedLibs
    ∧ (binaryLinkSharedLibs pd).take pd.SharedLibs.length = pd.SharedLibs
    ∧ (binaryLinkSharedLibs pd).drop pd.SharedLibs.length = pd.LateSharedLibs := by
  refine ⟨?_, baseLinkerDeps_StaticLibs ctx static props deps,
    baseLinkerDeps_SharedLibs ctx static props deps,
    List.take_left _ _, List.drop_left _ _, List.take_left _ _, List.drop_left _ _⟩
  intro hd
  refine ⟨?_, ?_, ?_, ?_⟩
  · rw [baseLinkerDeps_LateStaticLibs]; simp [hd]
  · intro hg; rw [baseLinkerDeps_LateStaticLibs]; simp [hd, hg]
  · intro hs hn hsdk
    constructor <;> (rw [baseLinkerDeps_LateSharedLibs]; simp [hd, hs, hn, hsdk])
  · intro libs hl hs x hx
    rw [baseLinkerDeps_LateSharedLibs]; simp [hd, hs, hl, hx]

/-- Claim C8, counterexample: a module requesting neither a static nor a
shared build makes `linkageMutator` panic (an abort of the whole
process) instead of reporting a module-level configuration error, so
the expansion stage does crash on this well-typed input. -/
theorem C8_neither_mode_panic_counterexample :
    linkageMutator "libfoo" false false ["a.c"] none
      = LinkageResult.panicked "library \"libfoo\" not static or shared" := by
  rfl

/-- Claim C8, amended: for every module whose link-mode expansion finds
that neither a static build nor a shared build is requested,
`linkageMutator` panics with an error naming the module — a
process-level crash — rather than reporting a module-scoped
configuration error and continuing. -/
theorem C8_neither_mode_panics (moduleName : String) (srcs : List String)
    (compilerProps : Option LibraryCompilerProperties) :
    linkageMutator moduleName false false srcs compilerProps
      = LinkageResult.panicked
          ("library \"" ++ moduleName ++ "\" not static or shared") := by
  rfl

/-- Claim C9: dependency classification is deterministic — running the
computation on two modules with identical contexts, link modes and
property records yields identical deduplicated buckets, errors and
re-export lists — and the dedup-and-validate stage is idempotent:
re-running it on its own output leaves every bucket unchanged. -/
theorem C9_deps_deterministic_idempotent (ctx₁ ctx₂ : DepsCtx)
    (sb₁ sb₂ : Bool) (c₁ c₂ : BaseCompilerProperties)
    (l₁ l₂ : BaseLinkerProperties)
    (hctx : ctx₁ = ctx₂) (hsb : sb₁ = sb₂) (hc : c₁ = c₂) (hl : l₁ = l₂) :
    moduleDepsBinary ctx₁ sb₁ c₁ l₁ = moduleDepsBinary ctx₂ sb₂ c₂ l₂
    ∧ ∀ d : Deps, (cModuleDeps (cModuleDeps d).1).1 = (cModuleDeps d).1 := by
  subst hctx; subst hsb; subst hc; subst hl
  refine ⟨rfl, ?_⟩
  intro d
  simp [cModuleDeps, lastUniqueElements_idem]

/-- Claim C9, witness: the binary dependency computation applied twice
to the same concrete module (with a duplicated static-deps list) gives
the same answer, and re-deduplicating its output changes nothing. -/
theorem C9_deps_deterministic_idempotent_witness :
    moduleDepsBinary ⟨true, "bin", ""⟩ false {} { Static_libs := ["A", "B", "A"] }
      = moduleDepsBinary ⟨true, "bin", ""⟩ false {} { Static_libs := ["A", "B", "A"] }
    ∧ (cModuleDeps (cModuleDeps { StaticLibs := ["A", "B", "A"] }).1).1
        = (cModuleDeps { StaticLibs := ["A", "B", "A"] }).1 := by
  have h := C9_deps_deterministic_idempotent ⟨true, "bin", ""⟩ ⟨true, "bin", ""⟩
    false false {} {} { Static_libs := ["A", "B", "A"] }
    { Static_libs := ["A", "B", "A"] } rfl rfl rfl rfl
  exact ⟨h.1, h.2 _⟩

/-- Claim C10: the final illegal-flag denylist filter removes
denylisted entries only from the C, C++ and C-only flag lists; the
global, assembler, linker and Yacc (and libFlags) lists are unchanged
for every input, so a denylisted flag appearing in one of those lists
survives into the final flag set. -/
theorem C10_illegal_filter_scope (flags : Flags) :
    (stripIllegalFlags flags).GlobalFlags = flags.GlobalFlags
    ∧ (stripIllegalFlags flags).AsFlags = flags.AsFlags
    ∧ (stripIllegalFlags flags).LdFlags = flags.LdFlags
    ∧ (stripIllegalFlags flags).YaccFlags = flags.YaccFlags
    ∧ (stripIllegalFlags flags).libFlags = flags.libFlags
    ∧ (∀ x, x ∈ (stripIllegalFlags flags).CFlags ↔ x ∈ flags.CFlags ∧ x ∉ illegalFlags)
    ∧ (∀ x, x ∈ (stripIllegalFlags flags).CppFlags ↔ x ∈ flags.CppFlags ∧ x ∉ illegalFlags)
    ∧ (∀ x, x ∈ (stripIllegalFlags flags).ConlyFlags ↔ x ∈ flags.ConlyFlags ∧ x ∉ illegalFlags)
    ∧ (∀ f, f ∈ illegalFlags → f ∈ flags.LdFlags → f ∈ (stripIllegalFlags flags).LdFlags) := by
  refine ⟨rfl, rfl, rfl, rfl, rfl, ?_, ?_, ?_, fun f _ hf => hf⟩ <;>
    (intro x; simp [stripIllegalFlags, filterList, List.mem_filter, inList_eq_false])

end CC
